import Mathlib

/-!
# Offline-first expense tracker: a shallow embedding of the sync core

This file embeds the synchronization core of a React-Native expense tracker
(the `App` component: `checkNetworkStatus`, `loadExpenses`,
`loadDataFromDatabase`, `saveExpenses`, `syncWithBackend`,
`saveExpenseToBackend`, `addExpense`, `deleteExpense`, `retrySync`) as pure
Lean functions and proves properties of the embedded operations.

Modelling choices:
* Component state (`useState` variables `expenses`, `isOnline`) together with
  the durable AsyncStorage blob form a `World`; each handler is a function
  `Env → World → …` returning the new world plus an ordered trace of
  observable events (local writes, push/fetch/delete attempts, toasts).
  The source is a function component, so the state variables are per-render
  constants: every read inside a running handler sees the `Snap` captured at
  invocation, while `setExpenses`/`setIsOnline` update the authoritative
  `World` only for later reads from other invocations.  Helpers whose source
  reads state (`saveExpenseToBackend` reads `expenses` at line 226,
  `saveExpenses` reads `isOnline` at line 164, `retrySync` reads `isOnline`
  at lines 382 and 386) take that snapshot explicitly.
* Network and storage outcomes are inputs: an `Env` supplies the outcome of
  each backend call (keyed by the expense id for pushes, one outcome per
  call kind otherwise, since each handler performs at most one fetch and one
  delete), the connectivity-probe outcome, and whether AsyncStorage
  reads/writes succeed.  JSON (de)serialisation of the stored blob is
  treated as lossless.
* JavaScript numbers are modelled as `JSNum`: exact rationals extended with
  `nan` and the two infinities; `parseFloat` follows the ECMAScript grammar
  (leading whitespace, optional sign, `Infinity` or decimal digits with
  optional fraction and exponent, trailing garbage ignored).
* Exceptions are modelled by an explicit `threw` flag on the operations that
  can throw (`loadDataFromDatabase`, `saveExpenseToBackend`, the push loop);
  every `try/catch` of the source is reflected in the control flow.
* UI-only concerns (`isLoading`, form clearing, the confirmation dialog
  around `deleteExpense`, rendering) are outside the embedding; for
  `deleteExpense` we embed the body of the dialog's confirm handler.
-/

/-! ## JavaScript numbers and `parseFloat` -/

/-- A JavaScript number as needed here: NaN, the infinities, or an exact
finite value. -/
inductive JSNum where
  | nan
  | posInf
  | negInf
  | fin (q : ℚ)
deriving DecidableEq

/-- `isNaN(x)`. -/
def JSNum.isNaN : JSNum → Bool
  | .nan => true
  | _ => false

/-- The test `x <= 0` of the source (false for NaN, false for `Infinity`). -/
def JSNum.leZero : JSNum → Bool
  | .nan => false
  | .posInf => false
  | .negInf => true
  | .fin q => decide (q ≤ 0)

/-- Numeric value of a digit string. -/
def natOfDigits (l : List Char) : Nat :=
  l.foldl (fun n c => 10 * n + (c.toNat - 48)) 0

/-- The exact rational `± digits · 10 ^ t`. -/
def decValue (neg : Bool) (digits : Nat) (t : Int) : ℚ :=
  let n : Nat := if 0 ≤ t then digits * 10 ^ t.toNat else digits
  let d : Nat := if 0 ≤ t then 1 else 10 ^ (-t).toNat
  mkRat (if neg then -(n : Int) else (n : Int)) d

/-- JavaScript `String.prototype.trim`: strip whitespace from both ends. -/
def jsTrim (s : String) : String :=
  String.mk ((s.data.dropWhile Char.isWhitespace).reverse.dropWhile Char.isWhitespace).reverse

/-- The characters of the `Infinity` literal. -/
def infChars : List Char :=
  ['I', 'n', 'f', 'i', 'n', 'i', 't', 'y']

/-- Exponent digits after the sign of an exponent clause; an empty digit run
means the clause is not consumed (`parseFloat("1e") = 1`). -/
def expoTail (r : List Char) : Int :=
  match r with
  | '-' :: r2 =>
      let d := r2.takeWhile Char.isDigit
      if d = [] then 0 else -(natOfDigits d : Int)
  | '+' :: r2 =>
      let d := r2.takeWhile Char.isDigit
      if d = [] then 0 else (natOfDigits d : Int)
  | _ =>
      let d := r.takeWhile Char.isDigit
      if d = [] then 0 else (natOfDigits d : Int)

/-- Optional exponent clause `e`/`E` of a decimal literal. -/
def expoOf (cs : List Char) : Int :=
  match cs with
  | 'e' :: r => expoTail r
  | 'E' :: r => expoTail r
  | _ => 0

/-- Unsigned part of the `parseFloat` grammar: `Infinity`, or digits with
optional fraction and exponent; anything else is NaN. -/
def parseUnsigned (cs : List Char) (neg : Bool) : JSNum :=
  if cs.take 8 = infChars then (if neg then .negInf else .posInf)
  else
    let d1 := cs.takeWhile Char.isDigit
    let r1 := cs.dropWhile Char.isDigit
    let d2 := match r1 with
      | '.' :: r => r.takeWhile Char.isDigit
      | _ => []
    let r2 := match r1 with
      | '.' :: r => r.dropWhile Char.isDigit
      | _ => r1
    if d1 = [] ∧ d2 = [] then .nan
    else
      .fin (decValue neg (natOfDigits (d1 ++ d2)) (expoOf r2 - (d2.length : Int)))

/-- ECMAScript `parseFloat`: skip leading whitespace, optional sign, then the
longest valid decimal-literal sequence; trailing garbage is ignored. -/
def parseFloat (s : String) : JSNum :=
  match s.data.dropWhile Char.isWhitespace with
  | '-' :: r => parseUnsigned r true
  | '+' :: r => parseUnsigned r false
  | cs => parseUnsigned cs false

/-! ## Data model -/

/-- The `Expense` interface of the source: `synced` and `backendId` are
optional fields (`synced?: boolean; backendId?: number`). -/
structure Expense where
  id : String
  title : String
  amount : JSNum
  category : String
  date : String
  synced : Option Bool := none
  backendId : Option Nat := none
deriving DecidableEq

/-- Component state plus the durable local store: `expenses` and `isOnline`
are the `useState` variables, `store` the AsyncStorage blob under
`@expense_tracker` (`none` = no value stored). -/
structure World where
  expenses : List Expense
  isOnline : Bool
  store : Option (List Expense)
deriving DecidableEq

/-- Outcome of one `POST /SaveExpenses` push: the fetch throws, the response
is not ok, the response is ok with `status:false`, or ok with `status:true`
and a server-assigned id. -/
inductive PushResult where
  | netError
  | httpError
  | statusFalse
  | success (serverId : Nat)
deriving DecidableEq

/-- Outcome of one `GET /LoadExpenses` call; `success` carries the
`expenseList` of an ok `status:true` response. -/
inductive FetchResult where
  | netError
  | httpError
  | statusFalse
  | success (l : List Expense)
deriving DecidableEq

/-- Outcome of one `DELETE /DeleteExpenses` call. -/
inductive DeleteResult where
  | netError
  | httpError
  | statusFalse
  | success
deriving DecidableEq

/-- Outcome of the connectivity probe: a timeout/network failure, or a
received response with its `ok` flag. -/
inductive ProbeResult where
  | failure
  | response (ok_ : Bool)
deriving DecidableEq

/-- The environment a handler runs in: id-generation inputs, the current
date string, and the outcome of every external call it may make. -/
structure Env where
  now : String
  rand : String
  today : String
  push : String → PushResult
  fetch : FetchResult
  del : DeleteResult
  probe : ProbeResult
  readOk : Bool
  writeOk : Bool

/-- Toast severities used by the source. -/
inductive ToastKind where
  | success
  | warning
  | danger
deriving DecidableEq

/-- Toast titles used by the source, one constructor per distinct title
string (`halfSuccess` is the source's `Partial Success` toast, `inputError`
its validation `Error` toast). -/
inductive ToastTitle where
  | inputError
  | success
  | syncFailed
  | syncComplete
  | offline
  | loadingFailed
  | serverError
  | networkError
  | connectionError
  | halfSuccess
  | deleteFailed
  | saveError
deriving DecidableEq

/-- Observable events of a run, in program order. -/
inductive Ev where
  | localWrite (blob : List Expense)
  | pushAttempt (id : String)
  | fetchAttempt
  | deleteAttempt (id : String)
  | probeAttempt
  | toast (k : ToastKind) (t : ToastTitle)
deriving DecidableEq

/-- Result of a handler that cannot throw. -/
structure Run where
  world : World
  trace : List Ev
deriving DecidableEq

/-- Result of a handler that can throw (`threw` = an exception escaped). -/
structure RunT where
  world : World
  trace : List Ev
  threw : Bool
deriving DecidableEq

/-- Outcome `addExpense` reports: one of the two validation failures, or a
completed add. -/
inductive AddResult where
  | missingField
  | invalidAmount
  | added
deriving DecidableEq

/-- Result of `addExpense`. -/
structure AddRun where
  result : AddResult
  world : World
  trace : List Ev
deriving DecidableEq

/-! ## Small helpers shared by the handlers -/

/-- The `!exp.synced` test of the source (`undefined` and `false` are both
falsy). -/
def isUnsynced (e : Expense) : Bool :=
  !(e.synced == some true)

/-- `expensesToSync.filter(exp => !exp.synced)`. -/
def unsyncedOf (l : List Expense) : List Expense :=
  l.filter isUnsynced

/-- `expenseList.map(expense => ({...expense, synced: true}))`. -/
def markSynced (l : List Expense) : List Expense :=
  l.map (fun e => { e with synced := some true })

/-- `expenses.filter(exp => exp.id !== id)` (lines 316-320 of the source). -/
def removeById (l : List Expense) (i : String) : List Expense :=
  l.filter (fun e => e.id != i)

/-- The temporary id `tmp-${Date.now()}-${random}`. -/
def mkTmpId (now rand : String) : String :=
  "tmp-" ++ now ++ "-" ++ rand

/-- `expenseToDelete.backendId || id`: a `backendId` of `0` is falsy in
JavaScript, so it also falls back to the local id. -/
def remoteDeleteId (e : Expense) (i : String) : String :=
  match e.backendId with
  | some b => if b = 0 then i else toString b
  | none => i

/-- The guard `isOnline && expenseToDelete?.synced` of `deleteExpense`. -/
def delRemoteGuard (w : World) (i : String) : Bool :=
  w.isOnline && (match w.expenses.find? (fun e => e.id == i) with
    | some e0 => e0.synced == some true
    | none => false)

/-- What the probe outcome makes of the connectivity flag:
`setIsOnline(response.ok)` on a response, `setIsOnline(false)` on failure. -/
def probeOnline : ProbeResult → Bool
  | .failure => false
  | .response b => b

/-- The local snapshot read `AsyncStorage.getItem` + `if (stored) set…`:
the collection is replaced only when a blob exists. -/
def localSnapshotRead (w : World) : List Expense :=
  match w.store with
  | some l => l
  | none => w.expenses

/-! ## The handlers -/

/-- `checkNetworkStatus`: race the probe request against a 5s timeout; a
response sets `isOnline = response.ok`, any failure sets offline. -/
def checkNetworkStatus (env : Env) (w : World) : Run :=
  match env.probe with
  | .response b => ⟨{ w with isOnline := b }, [.probeAttempt]⟩
  | .failure => ⟨{ w with isOnline := false }, [.probeAttempt]⟩

/-- `loadDataFromDatabase`: fetch the full list; on ok + `status:true` mark
everything synced, replace the collection and persist it; on ok +
`status:false` only warn; on a non-ok response warn and go offline; on a
thrown fetch warn, go offline and re-throw. -/
def loadDataFromDatabase (env : Env) (w : World) : RunT :=
  match env.fetch with
  | .success l =>
      let sl := markSynced l
      if env.writeOk then
        ⟨{ w with expenses := sl, store := some sl },
          [.fetchAttempt, .localWrite sl], false⟩
      else
        ⟨{ w with expenses := sl, isOnline := false },
          [.fetchAttempt, .toast .danger .connectionError], true⟩
  | .statusFalse =>
      ⟨w, [.fetchAttempt, .toast .warning .serverError], false⟩
  | .httpError =>
      ⟨{ w with isOnline := false },
        [.fetchAttempt, .toast .danger .networkError], false⟩
  | .netError =>
      ⟨{ w with isOnline := false },
        [.fetchAttempt, .toast .danger .connectionError], true⟩

/-- `loadExpenses`: load from the backend when online (falling back to the
local snapshot only when that throws), otherwise read the local snapshot; a
failing local read is swallowed. -/
def loadExpenses (env : Env) (w : World) : Run :=
  if w.isOnline then
    let r := loadDataFromDatabase env w
    if r.threw then
      if env.readOk then
        ⟨{ r.world with expenses := localSnapshotRead r.world },
          r.trace ++ [.toast .warning .loadingFailed]⟩
      else
        ⟨r.world, r.trace ++ [.toast .warning .loadingFailed]⟩
    else
      ⟨r.world, r.trace⟩
  else
    if env.readOk then
      ⟨{ w with expenses := localSnapshotRead w }, []⟩
    else
      ⟨w, [.toast .warning .loadingFailed]⟩

/-- The render-captured state the closures of one handler invocation read:
the `useState` variables are constants inside a running handler, so
`setExpenses`/`setIsOnline` calls made during the invocation are invisible
to its later reads. -/
structure Snap where
  expenses : List Expense
  isOnline : Bool
deriving DecidableEq

/-- `saveExpenseToBackend`: push one expense; on ok + `status:true` the
source maps the render-captured `expenses` (line 226) — not the collection
its caller just built — to mark the record, then installs that rebuilt list
as state and snapshot; on ok + `status:false` only toast; on a non-ok
response toast and go offline; on a thrown fetch (or a failing persist)
toast, go offline and re-throw. -/
def saveExpenseToBackend (env : Env) (snap : Snap) (w : World) (e : Expense) : RunT :=
  match env.push e.id with
  | .success sid =>
      let upd := snap.expenses.map (fun x =>
        if x.id = e.id then { x with synced := some true, backendId := some sid } else x)
      if env.writeOk then
        ⟨{ w with expenses := upd, store := some upd },
          [.pushAttempt e.id, .localWrite upd], false⟩
      else
        ⟨{ w with expenses := upd, isOnline := false },
          [.pushAttempt e.id, .toast .danger .connectionError], true⟩
  | .statusFalse =>
      ⟨w, [.pushAttempt e.id, .toast .danger .serverError], false⟩
  | .httpError =>
      ⟨{ w with isOnline := false },
        [.pushAttempt e.id, .toast .danger .networkError], false⟩
  | .netError =>
      ⟨{ w with isOnline := false },
        [.pushAttempt e.id, .toast .danger .connectionError], true⟩

/-- The `for (const expense of unsyncedExpenses)` loop of `syncWithBackend`:
sequential pushes, aborted by the first thrown push. -/
def syncLoop (env : Env) (snap : Snap) : World → List Expense → RunT
  | w, [] => ⟨w, [], false⟩
  | w, e :: rest =>
      let r := saveExpenseToBackend env snap w e
      if r.threw then ⟨r.world, r.trace, true⟩
      else
        let r2 := syncLoop env snap r.world rest
        ⟨r2.world, r.trace ++ r2.trace, r2.threw⟩

/-- `syncWithBackend`: push every unsynced record of the given list, then
reload from the backend; any exception is caught and reported as a `Sync
Failed` warning. -/
def syncWithBackend (env : Env) (snap : Snap) (w : World) (toSync : List Expense) : Run :=
  let u := unsyncedOf toSync
  if u.isEmpty then ⟨w, []⟩
  else
    let r := syncLoop env snap w u
    if r.threw then ⟨r.world, r.trace ++ [.toast .warning .syncFailed]⟩
    else
      let r2 := loadDataFromDatabase env r.world
      if r2.threw then
        ⟨r2.world, r.trace ++ r2.trace ++ [.toast .warning .syncFailed]⟩
      else
        ⟨r2.world, r.trace ++ r2.trace⟩

/-- `saveExpenses`: persist locally first, then sync with the backend when
the render-captured flag says online (line 164); a failing local write is
caught (`Save Error`) and skips the sync. -/
def saveExpenses (env : Env) (snap : Snap) (w : World) (l : List Expense) : Run :=
  if env.writeOk then
    let w1 := { w with store := some l }
    if snap.isOnline then
      let r := syncWithBackend env snap w1 l
      ⟨r.world, .localWrite l :: r.trace⟩
    else
      ⟨w1, [.localWrite l]⟩
  else
    ⟨w, [.toast .danger .saveError]⟩

/-- The record `addExpense` constructs on a valid submission. -/
def newRecord (env : Env) (t a c : String) : Expense :=
  { id := mkTmpId env.now env.rand
    title := jsTrim t
    amount := parseFloat a
    category := c
    date := env.today
    synced := some false
    backendId := none }

/-- `addExpense`: validate, prepend the new record, persist and sync via
`saveExpenses`, then report success. -/
def addExpense (env : Env) (w : World) (t a c : String) : AddRun :=
  if jsTrim t = "" ∨ jsTrim a = "" then
    ⟨.missingField, w, [.toast .danger .inputError]⟩
  else if (parseFloat a).isNaN || (parseFloat a).leZero then
    ⟨.invalidAmount, w, [.toast .danger .inputError]⟩
  else
    let updated := newRecord env t a c :: w.expenses
    let r := saveExpenses env ⟨w.expenses, w.isOnline⟩ { w with expenses := updated } updated
    ⟨.added, r.world, r.trace ++ [.toast .success .success]⟩

/-- The branch of `deleteExpense` that only persists the reduced list (record
unsynced, missing, or offline); a failing write is caught as `Delete
Failed`. -/
def deleteLocalOnly (env : Env) (w1 : World) (upd : List Expense) : Run :=
  if env.writeOk then
    ⟨{ w1 with store := some upd }, [.localWrite upd, .toast .success .success]⟩
  else
    ⟨w1, [.toast .danger .deleteFailed]⟩

/-- The remote branch of `deleteExpense`: issue the remote delete; on
`status:true` toast success and reload from the backend; on `status:false`
warn `Partial Success`; on a non-ok response warn `Network Error`; a thrown
fetch (or thrown reload) is caught as `Delete Failed`. -/
def deleteRemote (env : Env) (w1 : World) (e0 : Expense) (i : String) : Run :=
  let ev := Ev.deleteAttempt (remoteDeleteId e0 i)
  match env.del with
  | .success =>
      let r := loadDataFromDatabase env w1
      if r.threw then
        ⟨r.world, ev :: .toast .success .success :: r.trace ++ [.toast .danger .deleteFailed]⟩
      else
        ⟨r.world, ev :: .toast .success .success :: r.trace⟩
  | .statusFalse => ⟨w1, [ev, .toast .warning .halfSuccess]⟩
  | .httpError => ⟨w1, [ev, .toast .warning .networkError]⟩
  | .netError => ⟨w1, [ev, .toast .danger .deleteFailed]⟩

/-- The confirm handler of `deleteExpense`: drop the record from the
collection, then either delete remotely (synced record while online) or just
persist the reduced list. -/
def deleteExpense (env : Env) (w : World) (i : String) : Run :=
  let upd := removeById w.expenses i
  let w1 := { w with expenses := upd }
  match w.expenses.find? (fun e => e.id == i) with
  | some e0 =>
      if w.isOnline && (e0.synced == some true) then deleteRemote env w1 e0 i
      else deleteLocalOnly env w1 upd
  | none => deleteLocalOnly env w1 upd

/-- `retrySync`: the source reads the render-captured `isOnline` both to
decide whether to probe (line 382) and to pick the branch (line 386), so a
probe that comes back online is never acted on within the same call:
entered offline it always reports `Offline` (after updating the flag for
later invocations); entered online it skips the probe, pushes the unsynced
records of the captured collection and toasts `Sync Complete`. -/
def retrySync (env : Env) (w : World) : Run :=
  let snap : Snap := ⟨w.expenses, w.isOnline⟩
  let p : Run := if snap.isOnline then ⟨w, []⟩ else checkNetworkStatus env w
  if snap.isOnline then
    let r := syncWithBackend env snap p.world snap.expenses
    ⟨r.world, p.trace ++ r.trace ++ [.toast .success .syncComplete]⟩
  else
    ⟨p.world, p.trace ++ [.toast .warning .offline]⟩

/-- The ids of the push attempts of a trace, in order. -/
def pushIds (tr : List Ev) : List String :=
  tr.filterMap (fun e => match e with
    | .pushAttempt i => some i
    | _ => none)

/-- Whether an event is a push attempt. -/
def isPush : Ev → Bool
  | .pushAttempt _ => true
  | _ => false

/-! ## Concrete fixtures used by counterexamples and witnesses -/

/-- An unsynced record already in the collection. -/
def expA : Expense :=
  { id := "old", title := "t", amount := .fin 1, category := "Food",
    date := "d", synced := some false, backendId := none }

/-- A synced record with a backend id. -/
def expB : Expense :=
  { id := "s1", title := "t", amount := .fin 2, category := "Food",
    date := "d", synced := some true, backendId := some 7 }

/-- A base environment: every remote call reaches the server but reports
`status:false`, the probe fails, storage works. -/
def env0 : Env :=
  { now := "1", rand := "r", today := "d2",
    push := fun _ => .statusFalse, fetch := .statusFalse,
    del := .statusFalse, probe := .failure,
    readOk := true, writeOk := true }

/-- Sample title text. -/
def sA : String := "a"

/-- Sample amount text. -/
def s1 : String := "1"

/-- Amount text `0`. -/
def s0 : String := "0"

/-- Sample category. -/
def sFood : String := "Food"

/-- Sample title text. -/
def sX : String := "x"

/-- The amount text `Infinity`. -/
def sInf : String := "Infinity"

/-- The id of `expB`. -/
def sS1 : String := "s1"

/-- The empty string. -/
def sEmpty : String := ""

/-! ## Probe (claim C8) -/

/-- Claim C8 (corrected), counterexample: with a received HTTP response whose
`ok` flag is false, `checkNetworkStatus` sets the connectivity flag to
`false`, while the claim states any received response yields reachable
(`true`). -/
theorem c8_counterexample :
    (checkNetworkStatus { env0 with probe := .response false }
      { expenses := [], isOnline := true, store := none }).world.isOnline = false := by
  rfl

/-- Claim C8 (amended): the probe yields `false` on a timeout or
network-level failure, and otherwise yields exactly the `ok` flag of the
received response (so a non-ok response also yields `false`); the collection
is untouched. -/
theorem c8_probe_characterization (env : Env) (w : World) :
    (checkNetworkStatus env w).world.isOnline = probeOnline env.probe ∧
    (checkNetworkStatus env w).world.expenses = w.expenses ∧
    (checkNetworkStatus env w).world.store = w.store := by
  cases h : env.probe <;> simp [checkNetworkStatus, probeOnline, h]

/-! ## Validation (claim C6) -/

/-- Claim C6 (corrected), counterexample: the amount text `Infinity` parses
to a positive non-finite value, passes the `isNaN || <= 0` check, and the
record is added (collection size 1, store written), while the claim states
a non-finite amount is rejected with `InvalidAmount` and no state change. -/
theorem c6_counterexample :
    (addExpense env0 { expenses := [], isOnline := false, store := none } sX sInf sFood).result
        = .added ∧
    (addExpense env0 { expenses := [], isOnline := false, store := none } sX sInf sFood).world.expenses.length
        = 1 := by
  exact ⟨rfl, rfl⟩

/-- Claim C6 (amended): `addExpense` fails with `MissingField` when the
trimmed title or the trimmed amount text is empty, and with `InvalidAmount`
when the amount text parses to NaN or to a value ≤ 0 (non-numeric input and
non-positive values are rejected; positive infinite parses are not);
in every failing case the collection, the connectivity flag and the local
store are completely unchanged. -/
theorem c6_validation (env : Env) (w : World) (t a c : String) :
    (jsTrim t = "" ∨ jsTrim a = "" →
      (addExpense env w t a c).result = .missingField ∧
      (addExpense env w t a c).world = w) ∧
    (jsTrim t ≠ "" → jsTrim a ≠ "" →
      ((parseFloat a).isNaN || (parseFloat a).leZero) = true →
      (addExpense env w t a c).result = .invalidAmount ∧
      (addExpense env w t a c).world = w) := by
  constructor
  · intro h
    simp [addExpense, h]
  · intro h1 h2 h3
    have h : ¬(jsTrim t = "" ∨ jsTrim a = "") := by
      simp [h1, h2]
    simp [addExpense, h, h3]

/-- Claim C6 witness: a blank title yields `MissingField` and an amount text
of `0` yields `InvalidAmount`, both leaving the world unchanged. -/
theorem c6_validation_witness :
    (addExpense env0 { expenses := [], isOnline := false, store := none } sEmpty s1 sFood).result
        = .missingField ∧
    (addExpense env0 { expenses := [], isOnline := false, store := none } sX s0 sFood).world
        = { expenses := [], isOnline := false, store := none } := by
  exact ⟨((c6_validation env0 _ sEmpty s1 sFood).1 (Or.inl rfl)).1,
         ((c6_validation env0 _ sX s0 sFood).2 (by decide) (by decide) (by decide)).2⟩

/-! ## Exact removal (claim C9) -/

/-- Under unique ids, removing the id of a member drops exactly one
element. -/
lemma removeById_length_of_mem {l : List Expense} {i : String}
    (h : (l.map Expense.id).Nodup) {e0 : Expense} (he : e0 ∈ l) (hid : e0.id = i) :
    (removeById l i).length + 1 = l.length := by
  induction l with
  | nil => cases he
  | cons a t ih =>
    rw [List.map_cons, List.nodup_cons] at h
    rcases List.mem_cons.mp he with rfl | het
    · have hat : ∀ e ∈ t, e.id ≠ i := by
        intro e het hei
        exact h.1 (hid ▸ hei ▸ List.mem_map_of_mem Expense.id het)
      have : removeById t i = t := by
        apply List.filter_eq_self.mpr
        intro e het
        simp [hat e het]
      simp [removeById, List.filter_cons, hid, this]
      exact hat
    · have hai : a.id ≠ i := by
        intro hai
        exact h.1 (hai ▸ hid ▸ (hid ▸ List.mem_map_of_mem Expense.id het))
      have := ih h.2 het
      simp only [removeById, List.filter_cons] at *
      simp [hai, this]

/-- Claim C9: under unique record ids, the removal step of `deleteExpense`
keeps every record with a different id, keeps nothing else, drops exactly
one element when the id is present, and is a no-op when it is absent; while
offline the resulting in-memory collection is exactly this removal. -/
theorem c9_remove_exact (env : Env) (w : World) (i : String)
    (h : (w.expenses.map Expense.id).Nodup) :
    (∀ e ∈ w.expenses, e.id ≠ i → e ∈ removeById w.expenses i) ∧
    (∀ e ∈ removeById w.expenses i, e ∈ w.expenses ∧ e.id ≠ i) ∧
    (∀ e0 ∈ w.expenses, e0.id = i → (removeById w.expenses i).length + 1 = w.expenses.length) ∧
    ((∀ e ∈ w.expenses, e.id ≠ i) → removeById w.expenses i = w.expenses) ∧
    (w.isOnline = false → (deleteExpense env w i).world.expenses = removeById w.expenses i) := by
  refine ⟨?_, ?_, ?_, ?_, ?_⟩
  · intro e he hne
    exact List.mem_filter.mpr ⟨he, by simp [hne]⟩
  · intro e he
    have := List.mem_filter.mp he
    exact ⟨this.1, by simpa using this.2⟩
  · intro e0 he0 hid
    exact removeById_length_of_mem h he0 hid
  · intro hall
    apply List.filter_eq_self.mpr
    intro e he
    simp [hall e he]
  · intro hoff
    cases hf : w.expenses.find? (fun e => e.id == i) with
    | none =>
      by_cases hwk : env.writeOk = true <;>
        simp [deleteExpense, hf, deleteLocalOnly, hwk]
    | some e0 =>
      by_cases hwk : env.writeOk = true <;>
        simp [deleteExpense, hf, hoff, deleteLocalOnly, hwk]

/-- Claim C9 witness: concrete two-record collection with distinct ids,
deleting the id of the second record. -/
theorem c9_remove_exact_witness :
    (∀ e ∈ [expA, expB], e.id ≠ sS1 → e ∈ removeById [expA, expB] sS1) ∧
    (∀ e ∈ removeById [expA, expB] sS1, e ∈ [expA, expB] ∧ e.id ≠ sS1) ∧
    (∀ e0 ∈ [expA, expB], e0.id = sS1 →
      (removeById [expA, expB] sS1).length + 1 = ([expA, expB] : List Expense).length) ∧
    ((∀ e ∈ [expA, expB], e.id ≠ sS1) → removeById [expA, expB] sS1 = [expA, expB]) ∧
    (false = false →
      (deleteExpense env0 { expenses := [expA, expB], isOnline := false, store := none } sS1).world.expenses
        = removeById [expA, expB] sS1) :=
  c9_remove_exact env0 { expenses := [expA, expB], isOnline := false, store := none } sS1 (by decide)

/-! ## Startup load (claim C3) -/

/-- Claim C3 (corrected), counterexample: online with a non-ok `LoadExpenses`
response and a non-empty durable snapshot, `loadExpenses` does not fall back
to the snapshot — the collection stays empty — while the claim states any
remote-fetch failure falls back to the durable local snapshot. -/
theorem c3_counterexample :
    (loadExpenses { env0 with fetch := .httpError }
      { expenses := [], isOnline := true, store := some [expA] }).world.expenses = [] ∧
    (loadExpenses { env0 with fetch := .httpError }
      { expenses := [], isOnline := true, store := some [expA] }).world.store = some [expA] := by
  exact ⟨rfl, rfl⟩

/-- Claim C3 (amended): `loadExpenses` populates the collection from one
source wholesale and never raises: online with a successful fetch it marks
every fetched record synced, replaces the collection and persists it; online
with a reachable-but-failing response (ok + `status:false`, or non-ok) it
leaves collection and snapshot untouched (no local fallback); only a thrown
fetch falls back to the durable snapshot; offline it reads the snapshot; a
failing local read leaves the collection as it was. -/
theorem c3_load_cases (env : Env) (w : World) (hw : env.writeOk = true) :
    (w.isOnline = true → ∀ L, env.fetch = .success L →
      (loadExpenses env w).world.expenses = markSynced L ∧
      (loadExpenses env w).world.store = some (markSynced L)) ∧
    (w.isOnline = true → env.fetch = .statusFalse → (loadExpenses env w).world = w) ∧
    (w.isOnline = true → env.fetch = .httpError →
      (loadExpenses env w).world.expenses = w.expenses ∧
      (loadExpenses env w).world.store = w.store ∧
      (loadExpenses env w).world.isOnline = false) ∧
    (w.isOnline = true → env.fetch = .netError → env.readOk = true →
      (loadExpenses env w).world.expenses = localSnapshotRead w ∧
      (loadExpenses env w).world.store = w.store) ∧
    (w.isOnline = true → env.fetch = .netError → env.readOk = false →
      (loadExpenses env w).world.expenses = w.expenses ∧
      (loadExpenses env w).world.store = w.store) ∧
    (w.isOnline = false → env.readOk = true →
      (loadExpenses env w).world.expenses = localSnapshotRead w ∧
      (loadExpenses env w).world.store = w.store) ∧
    (w.isOnline = false → env.readOk = false → (loadExpenses env w).world = w) := by
  refine ⟨?_, ?_, ?_, ?_, ?_, ?_, ?_⟩
  · intro hon L hf
    simp [loadExpenses, hon, loadDataFromDatabase, hf, hw]
  · intro hon hf
    simp [loadExpenses, hon, loadDataFromDatabase, hf]
  · intro hon hf
    simp [loadExpenses, hon, loadDataFromDatabase, hf]
  · intro hon hf hr
    simp [loadExpenses, hon, loadDataFromDatabase, hf, hr, localSnapshotRead]
  · intro hon hf hr
    simp [loadExpenses, hon, loadDataFromDatabase, hf, hr]
  · intro hon hr
    simp [loadExpenses, hon, hr]
  · intro hon hr
    simp [loadExpenses, hon, hr]

/-- Claim C3 witness: online with a successful fetch of one record, the
collection and snapshot become exactly that record marked synced. -/
theorem c3_load_cases_witness :
    (loadExpenses { env0 with fetch := .success [expA] }
      { expenses := [], isOnline := true, store := none }).world.expenses = markSynced [expA] ∧
    (loadExpenses { env0 with fetch := .success [expA] }
      { expenses := [], isOnline := true, store := none }).world.store = some (markSynced [expA]) :=
  (c3_load_cases { env0 with fetch := .success [expA] }
    { expenses := [], isOnline := true, store := none } rfl).1 rfl [expA] rfl

/-! ## Delete persistence and error paths (claim C4) -/

/-- A true delete guard means: online, the record is found, and it is
synced. -/
lemma delRemoteGuard_elim {w : World} {i : String} (h : delRemoteGuard w i = true) :
    w.isOnline = true ∧
    ∃ e0, w.expenses.find? (fun e => e.id == i) = some e0 ∧ e0.synced = some true := by
  unfold delRemoteGuard at h
  cases hf : w.expenses.find? (fun e => e.id == i) with
  | none => rw [hf] at h; simp at h
  | some e0 =>
    rw [hf] at h
    simp only [Bool.and_eq_true, beq_iff_eq] at h
    exact ⟨h.1, e0, rfl, h.2⟩

/-- When the guard is true, `deleteExpense` runs the remote branch on the
found record. -/
lemma deleteExpense_eq_remote {env : Env} {w : World} {i : String} {e0 : Expense}
    (hf : w.expenses.find? (fun e => e.id == i) = some e0)
    (hs : e0.synced = some true) (hon : w.isOnline = true) :
    deleteExpense env w i =
      deleteRemote env { w with expenses := removeById w.expenses i } e0 i := by
  simp [deleteExpense, hf, hon, hs]

/-- Claim C4 (corrected), counterexample: deleting a synced record online
with the remote delete answering `status:false` removes it from memory but
never persists the reduced collection — the durable snapshot still holds the
record — while the claim states the reduced collection is persisted
unconditionally. -/
theorem c4_counterexample :
    (deleteExpense env0 { expenses := [expB], isOnline := true, store := some [expB] } sS1).world.expenses
      = [] ∧
    (deleteExpense env0 { expenses := [expB], isOnline := true, store := some [expB] } sS1).world.store
      = some [expB] := by
  exact ⟨rfl, rfl⟩

/-- Claim C4 (amended): `deleteExpense` always removes the record from the
in-memory collection and never rolls that back, and no exception escapes;
but the reduced collection is persisted locally only when no remote delete
is attempted (offline, record unsynced or missing). When a remote delete is
attempted and fails, the snapshot is left stale: `status:false` yields a
`Partial Success` warning, a non-ok response a `Network Error` warning, and
a thrown fetch a danger `Delete Failed` notification. -/
theorem c4_delete_cases (env : Env) (w : World) (i : String) (hw : env.writeOk = true) :
    (delRemoteGuard w i = false →
      (deleteExpense env w i).world.expenses = removeById w.expenses i ∧
      (deleteExpense env w i).world.store = some (removeById w.expenses i) ∧
      Ev.toast .success .success ∈ (deleteExpense env w i).trace) ∧
    (delRemoteGuard w i = true → env.del = .statusFalse →
      (deleteExpense env w i).world.expenses = removeById w.expenses i ∧
      (deleteExpense env w i).world.store = w.store ∧
      Ev.toast .warning .halfSuccess ∈ (deleteExpense env w i).trace) ∧
    (delRemoteGuard w i = true → env.del = .httpError →
      (deleteExpense env w i).world.expenses = removeById w.expenses i ∧
      (deleteExpense env w i).world.store = w.store ∧
      Ev.toast .warning .networkError ∈ (deleteExpense env w i).trace) ∧
    (delRemoteGuard w i = true → env.del = .netError →
      (deleteExpense env w i).world.expenses = removeById w.expenses i ∧
      (deleteExpense env w i).world.store = w.store ∧
      Ev.toast .danger .deleteFailed ∈ (deleteExpense env w i).trace) ∧
    (delRemoteGuard w i = true → env.del = .success → (∀ L, env.fetch ≠ .success L) →
      (deleteExpense env w i).world.expenses = removeById w.expenses i ∧
      (deleteExpense env w i).world.store = w.store) := by
  refine ⟨?_, ?_, ?_, ?_, ?_⟩
  · intro hg
    unfold delRemoteGuard at hg
    cases hf : w.expenses.find? (fun e => e.id == i) with
    | none => simp [deleteExpense, hf, deleteLocalOnly, hw]
    | some e0 =>
      rw [hf] at hg
      simp [deleteExpense, hf, hg, deleteLocalOnly, hw]
  · intro hg hdel
    obtain ⟨hon, e0, hf, hs⟩ := delRemoteGuard_elim hg
    rw [deleteExpense_eq_remote hf hs hon]
    simp [deleteRemote, hdel]
  · intro hg hdel
    obtain ⟨hon, e0, hf, hs⟩ := delRemoteGuard_elim hg
    rw [deleteExpense_eq_remote hf hs hon]
    simp [deleteRemote, hdel]
  · intro hg hdel
    obtain ⟨hon, e0, hf, hs⟩ := delRemoteGuard_elim hg
    rw [deleteExpense_eq_remote hf hs hon]
    simp [deleteRemote, hdel]
  · intro hg hdel hfetch
    obtain ⟨hon, e0, hf, hs⟩ := delRemoteGuard_elim hg
    rw [deleteExpense_eq_remote hf hs hon]
    cases hfe : env.fetch with
    | success L => exact absurd hfe (hfetch L)
    | netError => simp [deleteRemote, hdel, loadDataFromDatabase, hfe]
    | httpError => simp [deleteRemote, hdel, loadDataFromDatabase, hfe]
    | statusFalse => simp [deleteRemote, hdel, loadDataFromDatabase, hfe]

/-- Claim C4 witness: the `status:false` remote-delete case at a concrete
synced record: removed from memory, snapshot untouched, `Partial Success`
warning shown. -/
theorem c4_delete_cases_witness :
    (deleteExpense env0 { expenses := [expB], isOnline := true, store := some [expA] } sS1).world.expenses
      = removeById [expB] sS1 ∧
    (deleteExpense env0 { expenses := [expB], isOnline := true, store := some [expA] } sS1).world.store
      = some [expA] ∧
    Ev.toast .warning .halfSuccess
      ∈ (deleteExpense env0 { expenses := [expB], isOnline := true, store := some [expA] } sS1).trace :=
  (c4_delete_cases env0 { expenses := [expB], isOnline := true, store := some [expA] } sS1 rfl).2.1
    (by decide) rfl

/-! ## Push-loop machinery (claims C1, C2, C5) -/

/-- `pushIds` distributes over trace concatenation. -/
lemma pushIds_append (l1 l2 : List Ev) :
    pushIds (l1 ++ l2) = pushIds l1 ++ pushIds l2 := by
  simp [pushIds, List.filterMap_append]

/-- With a working local store, a push throws exactly on a network-level
error. -/
lemma saveExpenseToBackend_threw (env : Env) (snap : Snap) (w : World) (e : Expense)
    (hw : env.writeOk = true) :
    (saveExpenseToBackend env snap w e).threw = true ↔ env.push e.id = .netError := by
  cases h : env.push e.id <;> simp [saveExpenseToBackend, h, hw]

/-- Every push attempt records exactly its expense id. -/
lemma saveExpenseToBackend_pushIds (env : Env) (snap : Snap) (w : World) (e : Expense) :
    pushIds (saveExpenseToBackend env snap w e).trace = [e.id] := by
  cases h : env.push e.id <;> by_cases hw : env.writeOk = true <;>
    simp [saveExpenseToBackend, h, hw, pushIds]

/-- A push that throws only flips the connectivity flag. -/
lemma saveExpenseToBackend_netError (env : Env) (snap : Snap) (w : World) (e : Expense)
    (h : env.push e.id = .netError) :
    saveExpenseToBackend env snap w e =
      ⟨{ w with isOnline := false },
        [.pushAttempt e.id, .toast .danger .connectionError], true⟩ := by
  simp [saveExpenseToBackend, h]

/-- A push keeps every record with a different id that lies both in the
threaded collection and in the captured snapshot: a non-success outcome
leaves the collection alone, a success rebuilds it from the snapshot. -/
lemma saveExpenseToBackend_preserve (env : Env) (snap : Snap) (w : World) (e x : Expense)
    (hx : x ∈ w.expenses) (hsnap : x ∈ snap.expenses) (hne : x.id ≠ e.id) :
    x ∈ (saveExpenseToBackend env snap w e).world.expenses := by
  cases h : env.push e.id with
  | success sid =>
    by_cases hw : env.writeOk = true <;>
      · simp only [saveExpenseToBackend, h, hw]
        simp only [if_true, if_false, Bool.false_eq_true, reduceIte]
        exact List.mem_map.mpr ⟨x, hsnap, by simp [hne]⟩
  | netError => simp [saveExpenseToBackend, h]; exact hx
  | httpError => simp [saveExpenseToBackend, h]; exact hx
  | statusFalse => simp [saveExpenseToBackend, h]; exact hx

/-- A loop over pushes none of which hits a network-level error: it does not
throw, attempts exactly the listed ids in order, and keeps every record
whose id is not pushed. -/
lemma syncLoop_noThrow (env : Env) (snap : Snap) (hw : env.writeOk = true) :
    ∀ (l : List Expense), (∀ e ∈ l, env.push e.id ≠ .netError) → ∀ (w : World),
      (syncLoop env snap w l).threw = false ∧
      pushIds (syncLoop env snap w l).trace = l.map Expense.id ∧
      (∀ x, x ∈ w.expenses → x ∈ snap.expenses → x.id ∉ l.map Expense.id →
        x ∈ (syncLoop env snap w l).world.expenses) := by
  intro l
  induction l with
  | nil =>
    intro _ w
    exact ⟨rfl, rfl, fun x hx _ _ => hx⟩
  | cons e rest ih =>
    intro h w
    have he : env.push e.id ≠ .netError := h e (List.mem_cons_self e rest)
    have hthrew : (saveExpenseToBackend env snap w e).threw = false := by
      cases ht : (saveExpenseToBackend env snap w e).threw with
      | false => rfl
      | true => exact absurd ((saveExpenseToBackend_threw env snap w e hw).mp ht) he
    obtain ⟨ih1, ih2, ih3⟩ :=
      ih (fun x hx => h x (List.mem_cons_of_mem e hx)) (saveExpenseToBackend env snap w e).world
    refine ⟨?_, ?_, ?_⟩
    · simp [syncLoop, hthrew, ih1]
    · simp [syncLoop, hthrew, pushIds_append, saveExpenseToBackend_pushIds, ih2]
    · intro x hx hxs hid
      simp only [List.map_cons, List.mem_cons, not_or] at hid
      have hx1 : x ∈ (saveExpenseToBackend env snap w e).world.expenses :=
        saveExpenseToBackend_preserve env snap w e x hx hxs hid.1
      have := ih3 x hx1 hxs hid.2
      simp [syncLoop, hthrew]
      exact this

/-- A loop whose pushes reach a first network-level error after `pre`: it
throws there, attempts exactly the ids of `pre` plus the failing one, ends
offline, and keeps every record whose id is not among the attempted ones. -/
lemma syncLoop_stop (env : Env) (snap : Snap) (hw : env.writeOk = true) :
    ∀ (pre : List Expense) (bad : Expense) (post : List Expense),
      (∀ e ∈ pre, env.push e.id ≠ .netError) → env.push bad.id = .netError →
      ∀ (w : World),
      (syncLoop env snap w (pre ++ bad :: post)).threw = true ∧
      pushIds (syncLoop env snap w (pre ++ bad :: post)).trace
        = pre.map Expense.id ++ [bad.id] ∧
      (syncLoop env snap w (pre ++ bad :: post)).world.isOnline = false ∧
      (∀ x, x ∈ w.expenses → x ∈ snap.expenses → x.id ∉ pre.map Expense.id → x.id ≠ bad.id →
        x ∈ (syncLoop env snap w (pre ++ bad :: post)).world.expenses) := by
  intro pre
  induction pre with
  | nil =>
    intro bad post _ hbad w
    rw [List.nil_append]
    have hb := saveExpenseToBackend_netError env snap w bad hbad
    refine ⟨?_, ?_, ?_, ?_⟩
    · simp [syncLoop, hb]
    · simp [syncLoop, hb, pushIds]
    · simp [syncLoop, hb]
    · intro x hx _ _ _
      simp [syncLoop, hb]
      exact hx
  | cons a pre ih =>
    intro bad post hpre hbad w
    have ha : env.push a.id ≠ .netError := hpre a (List.mem_cons_self a pre)
    have hthrew : (saveExpenseToBackend env snap w a).threw = false := by
      cases ht : (saveExpenseToBackend env snap w a).threw with
      | false => rfl
      | true => exact absurd ((saveExpenseToBackend_threw env snap w a hw).mp ht) ha
    obtain ⟨ih1, ih2, ih3, ih4⟩ :=
      ih bad post (fun x hx => hpre x (List.mem_cons_of_mem a hx)) hbad
        (saveExpenseToBackend env snap w a).world
    refine ⟨?_, ?_, ?_, ?_⟩
    · simp [syncLoop, hthrew, ih1]
    · simp [syncLoop, hthrew, pushIds_append, saveExpenseToBackend_pushIds, ih2]
    · simp [syncLoop, hthrew, ih3]
    · intro x hx hxs hid hbadid
      simp only [List.map_cons, List.mem_cons, not_or] at hid
      have hx1 : x ∈ (saveExpenseToBackend env snap w a).world.expenses :=
        saveExpenseToBackend_preserve env snap w a x hx hxs hid.1
      have := ih4 x hx1 hxs hid.2 hbadid
      simp [syncLoop, hthrew]
      exact this

/-- `syncWithBackend` when the unsynced records decompose around a first
network-level push failure: it ends offline, attempts exactly the ids up to
and including the failing one, and keeps every record of the entry world
whose id was not attempted. -/
lemma syncWithBackend_stop (env : Env) (snap : Snap) (w : World) (toSync : List Expense)
    (pre post : List Expense) (bad : Expense) (hw : env.writeOk = true)
    (hu : unsyncedOf toSync = pre ++ bad :: post)
    (hpre : ∀ e ∈ pre, env.push e.id ≠ .netError)
    (hbad : env.push bad.id = .netError) :
    (syncWithBackend env snap w toSync).world.isOnline = false ∧
    pushIds (syncWithBackend env snap w toSync).trace = pre.map Expense.id ++ [bad.id] ∧
    (∀ x, x ∈ w.expenses → x ∈ snap.expenses → x.id ∉ pre.map Expense.id → x.id ≠ bad.id →
      x ∈ (syncWithBackend env snap w toSync).world.expenses) := by
  obtain ⟨s1, s2, s3, s4⟩ := syncLoop_stop env snap hw pre bad post hpre hbad w
  have hne : (pre ++ bad :: post).isEmpty = false := by
    cases pre <;> simp [List.isEmpty]
  simp only [syncWithBackend, hu, hne, Bool.false_eq_true, if_false, s1, if_true]
  refine ⟨s3, ?_, s4⟩
  rw [pushIds_append, s2]
  simp [pushIds]

/-- On a valid submission while online, `addExpense` reduces to: prepend
the record, persist the prepended collection, run `syncWithBackend` on it
(with the pre-add snapshot), then a success toast. -/
lemma addExpense_valid (env : Env) (w : World) (t a c : String)
    (hw : env.writeOk = true) (hon : w.isOnline = true)
    (ht : jsTrim t ≠ "") (ha : jsTrim a ≠ "")
    (hn : ((parseFloat a).isNaN || (parseFloat a).leZero) = false) :
    addExpense env w t a c =
      ⟨.added,
        (syncWithBackend env ⟨w.expenses, true⟩
          { expenses := newRecord env t a c :: w.expenses, isOnline := true,
            store := some (newRecord env t a c :: w.expenses) }
          (newRecord env t a c :: w.expenses)).world,
        .localWrite (newRecord env t a c :: w.expenses) ::
          ((syncWithBackend env ⟨w.expenses, true⟩
            { expenses := newRecord env t a c :: w.expenses, isOnline := true,
              store := some (newRecord env t a c :: w.expenses) }
            (newRecord env t a c :: w.expenses)).trace
          ++ [.toast .success .success])⟩ := by
  have hcond : ¬(jsTrim t = "" ∨ jsTrim a = "") := by simp [ht, ha]
  simp [addExpense, hcond, hn, saveExpenses, hw, hon]

/-- The push ids of a trace wrapped in a leading local write and a trailing
toast. -/
lemma pushIds_wrap (u : List Expense) (tr : List Ev) (k : ToastKind) (tt : ToastTitle) :
    pushIds (.localWrite u :: (tr ++ [.toast k tt])) = pushIds tr := by
  simp [pushIds]

/-- Claim C1 (corrected), counterexample: online with one pre-existing
unsynced record, both pushes fail with `status:false`; the first failing
push neither aborts the remaining pushes (the second record is still
pushed) nor flips the connectivity flag (still online afterwards). -/
theorem c1_counterexample :
    pushIds (addExpense env0
      { expenses := [expA], isOnline := true, store := some [expA] } sA s1 sFood).trace
      = [mkTmpId env0.now env0.rand, expA.id] ∧
    (addExpense env0
      { expenses := [expA], isOnline := true, store := some [expA] } sA s1 sFood).world.isOnline
      = true := by
  exact ⟨rfl, rfl⟩

/-- Claim C1 (amended): when online, `addExpense` pushes the unsynced
records sequentially in collection order; the first push failing with a
network-level exception flips the connectivity flag to offline and aborts
all remaining pushes (those records stay in the collection, still not
synced), and no fatal error reaches the caller (the add still reports
success); pushes that fail without throwing (non-ok response or
`status:false`) do not abort the batch. -/
theorem c1_push_loop (env : Env) (w : World) (t a c : String)
    (pre post : List Expense) (bad : Expense)
    (hw : env.writeOk = true) (hon : w.isOnline = true)
    (ht : jsTrim t ≠ "") (ha : jsTrim a ≠ "")
    (hn : ((parseFloat a).isNaN || (parseFloat a).leZero) = false)
    (hu : unsyncedOf (newRecord env t a c :: w.expenses) = pre ++ bad :: post)
    (hnodup : ((pre ++ bad :: post).map Expense.id).Nodup)
    (hpre : ∀ e ∈ pre, env.push e.id ≠ .netError)
    (hbad : env.push bad.id = .netError) :
    (addExpense env w t a c).result = .added ∧
    pushIds (addExpense env w t a c).trace = pre.map Expense.id ++ [bad.id] ∧
    (addExpense env w t a c).world.isOnline = false ∧
    ∀ e ∈ post, e ∈ (addExpense env w t a c).world.expenses ∧ e.synced ≠ some true := by
  obtain ⟨g1, g2, g3⟩ :=
    syncWithBackend_stop env ⟨w.expenses, true⟩
      { expenses := newRecord env t a c :: w.expenses, isOnline := true,
        store := some (newRecord env t a c :: w.expenses) }
      (newRecord env t a c :: w.expenses) pre post bad hw hu hpre hbad
  have hufil : unsyncedOf (newRecord env t a c :: w.expenses)
      = newRecord env t a c :: List.filter isUnsynced w.expenses := by
    show List.filter isUnsynced (newRecord env t a c :: w.expenses)
        = newRecord env t a c :: List.filter isUnsynced w.expenses
    rw [List.filter_cons]
    simp [isUnsynced, newRecord]
  have hdec : newRecord env t a c :: List.filter isUnsynced w.expenses
      = pre ++ bad :: post := by
    rw [← hufil]
    exact hu
  have hpostw : ∀ e ∈ post, e ∈ List.filter isUnsynced w.expenses := by
    intro e he
    cases pre with
    | nil =>
      rw [List.nil_append] at hdec
      injection hdec with h1 h2
      rw [h2]
      exact he
    | cons a pre2 =>
      rw [List.cons_append] at hdec
      injection hdec with h1 h2
      rw [h2]
      exact List.mem_append_right _ (List.mem_cons_of_mem _ he)
  rw [addExpense_valid env w t a c hw hon ht ha hn]
  refine ⟨rfl, ?_, g1, ?_⟩
  · rw [show (⟨.added, _, .localWrite (newRecord env t a c :: w.expenses) ::
        ((syncWithBackend env ⟨w.expenses, true⟩
          { expenses := newRecord env t a c :: w.expenses, isOnline := true,
            store := some (newRecord env t a c :: w.expenses) }
          (newRecord env t a c :: w.expenses)).trace
        ++ [.toast .success .success])⟩ : AddRun).trace
      = .localWrite (newRecord env t a c :: w.expenses) ::
        ((syncWithBackend env ⟨w.expenses, true⟩
          { expenses := newRecord env t a c :: w.expenses, isOnline := true,
            store := some (newRecord env t a c :: w.expenses) }
          (newRecord env t a c :: w.expenses)).trace
        ++ [.toast .success .success]) from rfl]
    rw [pushIds_wrap]
    exact g2
  · intro e he
    have hef : e ∈ List.filter isUnsynced w.expenses := hpostw e he
    have hew : e ∈ w.expenses := (List.mem_filter.mp hef).1
    have hunsynced : isUnsynced e = true := (List.mem_filter.mp hef).2
    rw [List.map_append, List.map_cons, List.nodup_append] at hnodup
    obtain ⟨n1, n2, disj⟩ := hnodup
    have hein : e.id ∈ post.map Expense.id := List.mem_map_of_mem Expense.id he
    have hid1 : e.id ∉ pre.map Expense.id := by
      intro hin
      exact disj hin (List.mem_cons_of_mem _ hein)
    have hid2 : e.id ≠ bad.id := by
      intro heq
      exact (List.nodup_cons.mp n2).1 (heq ▸ hein)
    refine ⟨g3 e (List.mem_cons_of_mem _ hew) hew hid1 hid2, ?_⟩
    simpa [isUnsynced] using hunsynced

/-- Claim C1 witness: a network-level failure on the very first push (the
new record) aborts before the pre-existing unsynced record is pushed, ends
offline, and that record stays unsynced in the collection. -/
theorem c1_push_loop_witness :
    (addExpense { env0 with push := fun _ => .netError }
      { expenses := [expA], isOnline := true, store := some [expA] } sA s1 sFood).result
      = .added ∧
    pushIds (addExpense { env0 with push := fun _ => .netError }
      { expenses := [expA], isOnline := true, store := some [expA] } sA s1 sFood).trace
      = List.map Expense.id []
        ++ [(newRecord { env0 with push := fun _ => .netError } sA s1 sFood).id] ∧
    (addExpense { env0 with push := fun _ => .netError }
      { expenses := [expA], isOnline := true, store := some [expA] } sA s1 sFood).world.isOnline
      = false ∧
    ∀ e ∈ [expA],
      e ∈ (addExpense { env0 with push := fun _ => .netError }
        { expenses := [expA], isOnline := true, store := some [expA] } sA s1 sFood).world.expenses ∧
      e.synced ≠ some true :=
  c1_push_loop { env0 with push := fun _ => .netError }
    { expenses := [expA], isOnline := true, store := some [expA] } sA s1 sFood
    [] [expA] (newRecord { env0 with push := fun _ => .netError } sA s1 sFood)
    rfl rfl (by decide) (by decide) (by decide) (by decide) (by decide)
    (by simp) rfl

/-! ## Sync status of a fresh add (claim C2) -/

/-- A collection of fully synced records has nothing to push. -/
lemma unsyncedOf_eq_nil {l : List Expense} (h : ∀ e ∈ l, e.synced = some true) :
    unsyncedOf l = [] := by
  apply List.filter_eq_nil_iff.mpr
  intro e he
  simp [isUnsynced, h e he]

/-- The per-push collection rewrite is the identity on records with a
different id. -/
lemma map_syncMark_id (l : List Expense) (i : String) (sid : Nat)
    (h : ∀ e ∈ l, e.id ≠ i) :
    l.map (fun x =>
      if x.id = i then { x with synced := some true, backendId := some sid } else x) = l := by
  induction l with
  | nil => rfl
  | cons a t ih =>
    simp [h a (List.mem_cons_self a t), ih (fun e he => h e (List.mem_cons_of_mem a he))]

/-- A single successful push rebuilds the collection from the captured
snapshot list and persists that rebuilt list. -/
lemma syncLoop_single_success (env : Env) (se : List Expense) (b : Bool)
    (w : World) (e : Expense) (sid : Nat)
    (hw : env.writeOk = true) (hp : env.push e.id = .success sid) :
    syncLoop env ⟨se, b⟩ w [e] =
      ⟨{ w with
          expenses := se.map (fun x =>
            if x.id = e.id then { x with synced := some true, backendId := some sid } else x),
          store := some (se.map (fun x =>
            if x.id = e.id then { x with synced := some true, backendId := some sid } else x)) },
        [.pushAttempt e.id,
          .localWrite (se.map (fun x =>
            if x.id = e.id then { x with synced := some true, backendId := some sid } else x))],
        false⟩ := by
  simp [syncLoop, saveExpenseToBackend, hp, hw]

/-- A failing reload leaves collection and snapshot unchanged. -/
lemma loadDataFromDatabase_fail (env : Env) (w : World)
    (hf : ∀ L, env.fetch ≠ .success L) :
    (loadDataFromDatabase env w).world.expenses = w.expenses ∧
    (loadDataFromDatabase env w).world.store = w.store := by
  cases hfe : env.fetch with
  | success L => exact absurd hfe (hf L)
  | netError => simp [loadDataFromDatabase, hfe]
  | httpError => simp [loadDataFromDatabase, hfe]
  | statusFalse => simp [loadDataFromDatabase, hfe]

/-- After a non-throwing push loop, the resulting world of `syncWithBackend`
is the world of the reload run from the loop's world. -/
lemma syncWithBackend_world_after_loop (env : Env) (snap : Snap) (w : World)
    (toSync : List Expense)
    (hne : (unsyncedOf toSync).isEmpty = false)
    (hthrew : (syncLoop env snap w (unsyncedOf toSync)).threw = false) :
    (syncWithBackend env snap w toSync).world =
      (loadDataFromDatabase env (syncLoop env snap w (unsyncedOf toSync)).world).world := by
  simp only [syncWithBackend, hne, Bool.false_eq_true, if_false, hthrew]
  split <;> rfl

/-- With all prior records synced, a valid online add whose single push
succeeds ends, before/without a successful reload, in the world obtained by
running the reload from the *pre-add* state: the success handler rebuilds
collection and snapshot from the render-captured pre-add list (which the
marking map leaves unchanged), dropping the just-added record. -/
lemma addExpense_stale_revert (env : Env) (w : World) (t a c : String) (sid : Nat)
    (ht : jsTrim t ≠ "") (ha : jsTrim a ≠ "")
    (hn : ((parseFloat a).isNaN || (parseFloat a).leZero) = false)
    (hon : w.isOnline = true) (hw : env.writeOk = true)
    (hsync : ∀ e ∈ w.expenses, e.synced = some true)
    (hne : ∀ e ∈ w.expenses, e.id ≠ (newRecord env t a c).id)
    (hpush : env.push (newRecord env t a c).id = .success sid) :
    (addExpense env w t a c).world =
      (loadDataFromDatabase env ⟨w.expenses, true, some w.expenses⟩).world := by
  have hu2 : unsyncedOf (newRecord env t a c :: w.expenses) = [newRecord env t a c] := by
    show List.filter isUnsynced (newRecord env t a c :: w.expenses) = [newRecord env t a c]
    rw [List.filter_cons]
    simp [isUnsynced, newRecord]
    exact hsync
  have hloop := syncLoop_single_success env w.expenses true
    { expenses := newRecord env t a c :: w.expenses, isOnline := true,
      store := some (newRecord env t a c :: w.expenses) }
    (newRecord env t a c) sid hw hpush
  rw [map_syncMark_id w.expenses (newRecord env t a c).id sid hne] at hloop
  have hthrew : (syncLoop env ⟨w.expenses, true⟩
      { expenses := newRecord env t a c :: w.expenses, isOnline := true,
        store := some (newRecord env t a c :: w.expenses) }
      (unsyncedOf (newRecord env t a c :: w.expenses))).threw = false := by
    rw [hu2, hloop]
  have hworld := syncWithBackend_world_after_loop env ⟨w.expenses, true⟩
    { expenses := newRecord env t a c :: w.expenses, isOnline := true,
      store := some (newRecord env t a c :: w.expenses) }
    (newRecord env t a c :: w.expenses) (by rw [hu2]; rfl) hthrew
  rw [addExpense_valid env w t a c hw hon ht ha hn]
  show (syncWithBackend env ⟨w.expenses, true⟩
      { expenses := newRecord env t a c :: w.expenses, isOnline := true,
        store := some (newRecord env t a c :: w.expenses) }
      (newRecord env t a c :: w.expenses)).world = _
  rw [hworld, hu2, hloop]

/-- Claim C2 (code bug), evaluated at the failing input: online add of
title `a`, amount `1` over an empty collection; the remote create succeeds
with `status:true, id:42` and the post-push reload throws.  The source's own
comments promise the record is "marked as synced after successful backend
save", but the success handler maps the render-captured pre-add `expenses`,
marks nothing, and installs that stale list as state and snapshot: the run
ends with the collection and the snapshot reverted to the pre-add (empty)
state — the created record is gone, neither `synced=true` nor carrying any
backend id, instead of `synced=true` with `remoteId` as the claim states. -/
theorem c2_stale_closure_eval :
    (addExpense { env0 with push := fun _ => .success 42, fetch := .netError }
      { expenses := [], isOnline := true, store := none } sA s1 sFood).result = .added ∧
    (addExpense { env0 with push := fun _ => .success 42, fetch := .netError }
      { expenses := [], isOnline := true, store := none } sA s1 sFood).world.expenses = [] ∧
    (addExpense { env0 with push := fun _ => .success 42, fetch := .netError }
      { expenses := [], isOnline := true, store := none } sA s1 sFood).world.store = some [] := by
  exact ⟨rfl, rfl, rfl⟩

/-! ## Shape of a successful add (claim C7) -/

/-- On a valid submission while offline, `addExpense` prepends, persists,
and toasts success — no sync. -/
lemma addExpense_valid_offline (env : Env) (w : World) (t a c : String)
    (hw : env.writeOk = true) (hoff : w.isOnline = false)
    (ht : jsTrim t ≠ "") (ha : jsTrim a ≠ "")
    (hn : ((parseFloat a).isNaN || (parseFloat a).leZero) = false) :
    addExpense env w t a c =
      ⟨.added,
        { expenses := newRecord env t a c :: w.expenses, isOnline := false,
          store := some (newRecord env t a c :: w.expenses) },
        [.localWrite (newRecord env t a c :: w.expenses), .toast .success .success]⟩ := by
  have hcond : ¬(jsTrim t = "" ∨ jsTrim a = "") := by simp [ht, ha]
  simp [addExpense, hcond, hn, saveExpenses, hw, hoff]

/-- Claim C7: a valid `addExpense` reports success; the new record is
freshly id-ed (`tmp-` + timestamp + random suffix), starts `synced=false`,
and the prepended collection — exactly one longer, new record first — is
written to the local store before any push is attempted, whatever the
connectivity flag. -/
theorem c7_add_shape (env : Env) (w : World) (t a c : String)
    (hw : env.writeOk = true) (ht : jsTrim t ≠ "") (ha : jsTrim a ≠ "")
    (hn : ((parseFloat a).isNaN || (parseFloat a).leZero) = false) :
    (addExpense env w t a c).result = .added ∧
    (newRecord env t a c).synced = some false ∧
    (newRecord env t a c).id = mkTmpId env.now env.rand ∧
    (newRecord env t a c :: w.expenses).length = w.expenses.length + 1 ∧
    (newRecord env t a c :: w.expenses).head? = some (newRecord env t a c) ∧
    Ev.localWrite (newRecord env t a c :: w.expenses) ∈
      ((addExpense env w t a c).trace.takeWhile (fun e => !(isPush e))) := by
  cases hon : w.isOnline with
  | true =>
    rw [addExpense_valid env w t a c hw hon ht ha hn]
    refine ⟨rfl, rfl, rfl, by simp, rfl, ?_⟩
    rw [show ((⟨.added, _, .localWrite (newRecord env t a c :: w.expenses) ::
        ((syncWithBackend env ⟨w.expenses, true⟩
          { expenses := newRecord env t a c :: w.expenses, isOnline := true,
            store := some (newRecord env t a c :: w.expenses) }
          (newRecord env t a c :: w.expenses)).trace
        ++ [.toast .success .success])⟩ : AddRun)).trace
      = .localWrite (newRecord env t a c :: w.expenses) ::
        ((syncWithBackend env ⟨w.expenses, true⟩
          { expenses := newRecord env t a c :: w.expenses, isOnline := true,
            store := some (newRecord env t a c :: w.expenses) }
          (newRecord env t a c :: w.expenses)).trace
        ++ [.toast .success .success]) from rfl]
    rw [List.takeWhile_cons_of_pos (by simp [isPush])]
    exact List.mem_cons_self _ _
  | false =>
    rw [addExpense_valid_offline env w t a c hw hon ht ha hn]
    refine ⟨rfl, rfl, rfl, by simp, rfl, ?_⟩
    rw [show ((⟨.added,
        { expenses := newRecord env t a c :: w.expenses, isOnline := false,
          store := some (newRecord env t a c :: w.expenses) },
        [.localWrite (newRecord env t a c :: w.expenses),
          .toast .success .success]⟩ : AddRun)).trace
      = [Ev.localWrite (newRecord env t a c :: w.expenses),
          Ev.toast .success .success] from rfl]
    rw [List.takeWhile_cons_of_pos (by simp [isPush])]
    exact List.mem_cons_self _ _

/-- Claim C7 witness: concrete valid add while online over a one-record
collection. -/
theorem c7_add_shape_witness :
    (addExpense env0 { expenses := [expA], isOnline := true, store := none } sA s1 sFood).result
      = .added ∧
    (newRecord env0 sA s1 sFood).synced = some false ∧
    (newRecord env0 sA s1 sFood).id = mkTmpId env0.now env0.rand ∧
    (newRecord env0 sA s1 sFood :: [expA]).length = ([expA] : List Expense).length + 1 ∧
    (newRecord env0 sA s1 sFood :: [expA]).head? = some (newRecord env0 sA s1 sFood) ∧
    Ev.localWrite (newRecord env0 sA s1 sFood :: [expA]) ∈
      ((addExpense env0 { expenses := [expA], isOnline := true, store := none } sA s1 sFood).trace.takeWhile
        (fun e => !(isPush e))) :=
  c7_add_shape env0 { expenses := [expA], isOnline := true, store := none } sA s1 sFood
    rfl (by decide) (by decide) (by decide)

/-! ## Retry sync (claim C5) -/

/-- A reload emits no probe event. -/
lemma loadDataFromDatabase_no_probe (env : Env) (w : World) :
    Ev.probeAttempt ∉ (loadDataFromDatabase env w).trace := by
  cases hfe : env.fetch <;> by_cases hwk : env.writeOk = true <;>
    simp [loadDataFromDatabase, hfe, hwk]

/-- A push emits no probe event. -/
lemma saveExpenseToBackend_no_probe (env : Env) (snap : Snap) (w : World) (e : Expense) :
    Ev.probeAttempt ∉ (saveExpenseToBackend env snap w e).trace := by
  cases hp : env.push e.id <;> by_cases hwk : env.writeOk = true <;>
    simp [saveExpenseToBackend, hp, hwk]

/-- The push loop emits no probe event. -/
lemma syncLoop_no_probe (env : Env) (snap : Snap) :
    ∀ (l : List Expense) (w : World), Ev.probeAttempt ∉ (syncLoop env snap w l).trace := by
  intro l
  induction l with
  | nil => intro w; simp [syncLoop]
  | cons e rest ih =>
    intro w
    by_cases ht : (saveExpenseToBackend env snap w e).threw = true
    · simp [syncLoop, ht, saveExpenseToBackend_no_probe]
    · simp only [syncLoop, ht, Bool.false_eq_true, if_false]
      simp only [List.mem_append, not_or]
      exact ⟨saveExpenseToBackend_no_probe env snap w e,
        ih (saveExpenseToBackend env snap w e).world⟩

/-- `syncWithBackend` emits no probe event. -/
lemma syncWithBackend_no_probe (env : Env) (snap : Snap) (w : World) (toSync : List Expense) :
    Ev.probeAttempt ∉ (syncWithBackend env snap w toSync).trace := by
  by_cases hne : (unsyncedOf toSync).isEmpty = true
  · simp [syncWithBackend, hne]
  · by_cases ht : (syncLoop env snap w (unsyncedOf toSync)).threw = true
    · simp [syncWithBackend, hne, ht, syncLoop_no_probe]
    · by_cases ht2 : (loadDataFromDatabase env
          (syncLoop env snap w (unsyncedOf toSync)).world).threw = true <;>
        simp [syncWithBackend, hne, ht, ht2, syncLoop_no_probe,
          loadDataFromDatabase_no_probe]

/-- Every reload run records its fetch attempt. -/
lemma loadDataFromDatabase_has_fetch (env : Env) (w : World) :
    Ev.fetchAttempt ∈ (loadDataFromDatabase env w).trace := by
  cases hfe : env.fetch <;> by_cases hwk : env.writeOk = true <;>
    simp [loadDataFromDatabase, hfe, hwk]

/-- With unsynced records and a non-throwing push loop, `syncWithBackend`
performs the reload. -/
lemma syncWithBackend_has_fetch (env : Env) (snap : Snap) (w : World) (toSync : List Expense)
    (hne : (unsyncedOf toSync).isEmpty = false)
    (hthrew : (syncLoop env snap w (unsyncedOf toSync)).threw = false) :
    Ev.fetchAttempt ∈ (syncWithBackend env snap w toSync).trace := by
  by_cases ht2 : (loadDataFromDatabase env
      (syncLoop env snap w (unsyncedOf toSync)).world).threw = true <;>
    simp [syncWithBackend, hne, hthrew, ht2, loadDataFromDatabase_has_fetch]

/-- Claim C5 (corrected), counterexample: `retrySync` while online with an
all-synced collection performs no full reload at all (no fetch attempt in
the trace), while the claim states a reload always follows when online. -/
theorem c5_counterexample :
    Ev.fetchAttempt ∉
      (retrySync env0 { expenses := [], isOnline := true, store := none }).trace ∧
    Ev.probeAttempt ∉
      (retrySync env0 { expenses := [], isOnline := true, store := none }).trace := by
  exact ⟨by decide, by decide⟩

/-- `checkNetworkStatus` as one equation. -/
lemma checkNetworkStatus_eq (env : Env) (w : World) :
    checkNetworkStatus env w =
      ⟨{ w with isOnline := probeOnline env.probe }, [.probeAttempt]⟩ := by
  cases hp : env.probe <;> simp [checkNetworkStatus, probeOnline, hp]

/-- Claim C5 (amended): `retrySync` runs the connectivity probe only when
the flag is offline, and the probe's result is never consulted within the
same call (the branch re-reads the render-captured flag): entered offline it
updates the connectivity flag from the probe for later invocations but
always reports the recoverable offline warning, leaves collection and
snapshot unchanged, pushes nothing and performs no reload; entered online it
skips the probe, pushes every currently-unsynced record via the shared
sequential loop, and performs the full reload only when at least one record
was unsynced and no push threw. -/
theorem c5_retry_cases (env : Env) (w : World) (hw : env.writeOk = true) :
    (w.isOnline = false →
      (retrySync env w).world.expenses = w.expenses ∧
      (retrySync env w).world.store = w.store ∧
      (retrySync env w).world.isOnline = probeOnline env.probe ∧
      Ev.probeAttempt ∈ (retrySync env w).trace ∧
      Ev.toast .warning .offline ∈ (retrySync env w).trace ∧
      Ev.fetchAttempt ∉ (retrySync env w).trace ∧
      pushIds (retrySync env w).trace = []) ∧
    (w.isOnline = true → Ev.probeAttempt ∉ (retrySync env w).trace) ∧
    (w.isOnline = true → unsyncedOf w.expenses = [] →
      Ev.fetchAttempt ∉ (retrySync env w).trace ∧
      (retrySync env w).world.expenses = w.expenses) ∧
    (w.isOnline = true → unsyncedOf w.expenses ≠ [] →
      (∀ e ∈ unsyncedOf w.expenses, env.push e.id ≠ .netError) →
      Ev.fetchAttempt ∈ (retrySync env w).trace) := by
  cases hon : w.isOnline with
  | true =>
    refine ⟨?_, ?_, ?_, ?_⟩
    · intro h; simp at h
    · intro _
      simp only [retrySync, hon]
      simp only [if_true, List.nil_append, List.mem_append, not_or]
      exact ⟨syncWithBackend_no_probe env ⟨w.expenses, true⟩ w w.expenses, by simp⟩
    · intro _ hu
      have hsw : syncWithBackend env ⟨w.expenses, true⟩ w w.expenses = ⟨w, []⟩ := by
        simp [syncWithBackend, hu]
      constructor
      · simp [retrySync, hon, hsw]
      · simp [retrySync, hon, hsw]
    · intro _ hu hp
      have hne : (unsyncedOf w.expenses).isEmpty = false := by
        simpa [List.isEmpty_iff] using hu
      have hthrew := (syncLoop_noThrow env ⟨w.expenses, true⟩ hw (unsyncedOf w.expenses) hp w).1
      have hfe := syncWithBackend_has_fetch env ⟨w.expenses, true⟩ w w.expenses hne hthrew
      simp only [retrySync, hon]
      simp [hfe]
  | false =>
    refine ⟨?_, ?_, ?_, ?_⟩
    · intro _
      simp [retrySync, hon, checkNetworkStatus_eq, pushIds]
    · intro h; simp at h
    · intro h; simp at h
    · intro h; simp at h

/-- Claim C5 witness: a retry entered offline whose probe comes back with an
ok response: the flag is refreshed to online, yet the call still reports the
offline warning, attempts no push and no reload, and leaves the collection
and snapshot unchanged. -/
theorem c5_retry_cases_witness :
    (retrySync { env0 with probe := .response true }
      { expenses := [expA], isOnline := false, store := some [expA] }).world.expenses
      = [expA] ∧
    (retrySync { env0 with probe := .response true }
      { expenses := [expA], isOnline := false, store := some [expA] }).world.store
      = some [expA] ∧
    (retrySync { env0 with probe := .response true }
      { expenses := [expA], isOnline := false, store := some [expA] }).world.isOnline
      = probeOnline ({ env0 with probe := .response true } : Env).probe ∧
    Ev.probeAttempt ∈ (retrySync { env0 with probe := .response true }
      { expenses := [expA], isOnline := false, store := some [expA] }).trace ∧
    Ev.toast .warning .offline ∈ (retrySync { env0 with probe := .response true }
      { expenses := [expA], isOnline := false, store := some [expA] }).trace ∧
    Ev.fetchAttempt ∉ (retrySync { env0 with probe := .response true }
      { expenses := [expA], isOnline := false, store := some [expA] }).trace ∧
    pushIds (retrySync { env0 with probe := .response true }
      { expenses := [expA], isOnline := false, store := some [expA] }).trace = [] :=
  (c5_retry_cases { env0 with probe := .response true }
    { expenses := [expA], isOnline := false, store := some [expA] } rfl).1 rfl

/-! ## Reload after a successful remote delete (claim C10) -/

/-- Claim C10: deleting a synced record while online with a successful
remote delete triggers a full reload; when that reload succeeds with server
list `L`, the in-memory collection and the snapshot both become exactly `L`
marked synced, so every record whose id the server does not report — in
particular any still-unsynced locally created record — is dropped. -/
theorem c10_delete_reload (env : Env) (w : World) (i : String) (e0 : Expense) (L : List Expense)
    (hw : env.writeOk = true) (hon : w.isOnline = true)
    (hf : w.expenses.find? (fun e => e.id == i) = some e0)
    (hs : e0.synced = some true)
    (hdel : env.del = .success) (hfetch : env.fetch = .success L) :
    (deleteExpense env w i).world.expenses = markSynced L ∧
    (deleteExpense env w i).world.store = some (markSynced L) ∧
    Ev.fetchAttempt ∈ (deleteExpense env w i).trace ∧
    ∀ e : Expense, e.id ∉ L.map Expense.id → e ∉ (deleteExpense env w i).world.expenses := by
  rw [deleteExpense_eq_remote hf hs hon]
  refine ⟨?_, ?_, ?_, ?_⟩
  · simp [deleteRemote, hdel, loadDataFromDatabase, hfetch, hw]
  · simp [deleteRemote, hdel, loadDataFromDatabase, hfetch, hw]
  · simp [deleteRemote, hdel, loadDataFromDatabase, hfetch, hw]
  · intro e hid hmem
    simp only [deleteRemote, hdel, loadDataFromDatabase, hfetch, hw, if_true,
      Bool.false_eq_true, if_false] at hmem
    have hmem2 : e ∈ List.map (fun x => { x with synced := some true }) L := by
      simpa [markSynced] using hmem
    obtain ⟨x, hx, rfl⟩ := List.mem_map.mp hmem2
    have hxid : x.id ∈ L.map Expense.id := List.mem_map_of_mem Expense.id hx
    exact hid hxid

/-- Claim C10 witness: deleting the synced record `s1` while the server list
returned by the reload holds only the record `old`: collection and snapshot
become that list marked synced, and any record with an id the server does
not report is gone. -/
theorem c10_delete_reload_witness :
    (deleteExpense { env0 with del := .success, fetch := .success [expA] }
      { expenses := [expB], isOnline := true, store := some [expB] } sS1).world.expenses
      = markSynced [expA] ∧
    (deleteExpense { env0 with del := .success, fetch := .success [expA] }
      { expenses := [expB], isOnline := true, store := some [expB] } sS1).world.store
      = some (markSynced [expA]) ∧
    Ev.fetchAttempt ∈ (deleteExpense { env0 with del := .success, fetch := .success [expA] }
      { expenses := [expB], isOnline := true, store := some [expB] } sS1).trace ∧
    ∀ e : Expense, e.id ∉ ([expA] : List Expense).map Expense.id →
      e ∉ (deleteExpense { env0 with del := .success, fetch := .success [expA] }
        { expenses := [expB], isOnline := true, store := some [expB] } sS1).world.expenses :=
  c10_delete_reload { env0 with del := .success, fetch := .success [expA] }
    { expenses := [expB], isOnline := true, store := some [expB] } sS1 expB [expA]
    rfl rfl (by decide) rfl rfl rfl
